import Mathlib

/-!
Verification of the umico.az clothes scraper (`scripts/clothes.py`).

The scraper is embedded shallowly:
* JSON / Python values are modelled by the inductive `PyVal`; `dict.get`,
  truthiness, `or`-defaulting, comparison and division are modelled by
  `nullGet` / `truthy` / `pyOr` / `pyGt` / `pyDivR`, raising operations
  return `Except String _`.
* `parse_product`, `fetch_page`, `get_total_pages` and the aggregation loop
  of `main` mirror the Python functions line by line.  Network I/O is
  abstracted by oracles: each HTTP attempt of a page is answered by a
  `NetResult`, and `fetch_page` additionally records the trace of
  semaphore / call / sleep events it performs.
* The concurrency discipline of `main`'s semaphore is modelled by a small
  step transition system (`Sys`, `Step`, `Reach`).

Numeric caveat: Python floats are modelled by exact rationals; `round(x, 1)`
is modelled by half-even rounding on the exact value (`pyRound1`).
-/

namespace Clothes

/-! ## Configuration constants (lines 17-25 of `clothes.py`) -/

def PER_PAGE : ℕ := 24
def CONCURRENCY : ℕ := 20
def RETRY_LIMIT : ℕ := 3
def RETRY_DELAY : ℕ := 2
def PRODUCT_BASE_URL : String := "https://birmarket.az/products"

/-- CSV_FIELDS (lines 42-61). -/
def CSV_FIELDS : List String :=
  ["id", "name", "brand", "category_id", "category_name", "status",
   "retail_price", "old_price", "discount_pct", "seller_name",
   "seller_rating", "rating_value", "review_count", "in_stock",
   "installment_enabled", "max_installment_months", "image_url",
   "product_url"]

/-! ## Python value model -/

/-- A Python / JSON value as the scraper manipulates it.  Floats are
modelled by exact rationals. -/
inductive PyVal where
  | none : PyVal
  | bool : Bool → PyVal
  | int : ℤ → PyVal
  | float : ℚ → PyVal
  | str : String → PyVal
  | list : List PyVal → PyVal
  | dict : List (String × PyVal) → PyVal

/-- Python truthiness (`bool(v)`). -/
def truthy : PyVal → Bool
  | .none => false
  | .bool b => b
  | .int n => decide (n ≠ 0)
  | .float q => decide (q ≠ 0)
  | .str s => decide (s ≠ "")
  | .list xs => !xs.isEmpty
  | .dict xs => !xs.isEmpty

/-- Python `a or b` (returns `a` when truthy, else `b`). -/
def pyOr (a b : PyVal) : PyVal := if truthy a then a else b

/-- `d.get(k)` on an association list: `None` when the key is absent. -/
def nullGet (xs : List (String × PyVal)) (k : String) : PyVal :=
  match xs.lookup k with
  | some v => v
  | Option.none => .none

/-- `d.get(k, dflt)` on an association list. -/
def dGetD (xs : List (String × PyVal)) (k : String) (dflt : PyVal) : PyVal :=
  (xs.lookup k).getD dflt

/-- `v.get(k)`: raises `AttributeError` when `v` is not a dict. -/
def pyGet (v : PyVal) (k : String) : Except String PyVal :=
  match v with
  | .dict xs => .ok (nullGet xs k)
  | _ => .error "AttributeError"

/-- `v.get(k, dflt)`: raises `AttributeError` when `v` is not a dict. -/
def pyGetD (v : PyVal) (k : String) (dflt : PyVal) : Except String PyVal :=
  match v with
  | .dict xs => .ok (dGetD xs k dflt)
  | _ => .error "AttributeError"

/-- `v[k]`: `KeyError` when absent, `TypeError` when `v` is not a dict. -/
def pyIndex (v : PyVal) (k : String) : Except String PyVal :=
  match v with
  | .dict xs =>
    match xs.lookup k with
    | some u => .ok u
    | Option.none => .error "KeyError"
  | _ => .error "TypeError"

/-- Numeric view of a value (Python treats `bool` as a number). -/
def toRatQ : PyVal → Option ℚ
  | .int n => some (n : ℚ)
  | .float q => some q
  | .bool b => some (if b then 1 else 0)
  | _ => Option.none

/-- Numeric value, defaulting to `0` for non-numbers. -/
def ratOf (v : PyVal) : ℚ := (toRatQ v).getD 0

/-- `a > b` in Python: defined on numbers and on string pairs, otherwise a
`TypeError`. -/
def pyGt (a b : PyVal) : Except String Bool :=
  match toRatQ a, toRatQ b with
  | some x, some y => .ok (decide (y < x))
  | _, _ =>
    match a, b with
    | .str s, .str t => .ok (decide (t < s))
    | _, _ => .error "TypeError"

/-- `a / b` in Python (true division), on numbers only. -/
def pyDivR (a b : PyVal) : Except String ℚ :=
  match toRatQ a, toRatQ b with
  | some x, some y =>
    if y = 0 then .error "ZeroDivisionError" else .ok (x / y)
  | _, _ => .error "TypeError"

/-- Round-half-to-even to an integer, as Python's `round` does. -/
def roundHalfEven (q : ℚ) : ℤ :=
  if q - ⌊q⌋ < 1/2 then ⌊q⌋
  else if 1/2 < q - ⌊q⌋ then ⌊q⌋ + 1
  else if 2 ∣ ⌊q⌋ then ⌊q⌋ else ⌊q⌋ + 1

/-- `round(q, 1)` on the exact rational value. -/
def pyRound1 (q : ℚ) : ℚ := (roundHalfEven (q * 10) : ℚ) / 10

/-- Python `str(v)` as used in the product-URL f-string.  Exact for strings,
`None`, bools and integers (the shapes the scraper can see in
`slugged_name`); other reprs are approximated. -/
def pyStrOf : PyVal → String
  | .none => "None"
  | .str s => s
  | .bool b => if b then "True" else "False"
  | .int n => toString n
  | .float q => if q.den = 1 then toString q.num ++ ".0" else toString q
  | .list _ => "[list]"
  | .dict _ => "[dict]"

/-! ## `parse_product` (lines 68-102) -/

/-- The discount computation of `parse_product` (lines 76-81):
`if retail_price and old_price and old_price > retail_price:
   discount_pct = round((1 - retail_price / old_price) * 100, 1)
 else: discount_pct = 0.0`. -/
def discountExpr (retail_price old_price : PyVal) : Except String PyVal :=
  if truthy retail_price && truthy old_price then do
    let gt ← pyGt old_price retail_price
    if gt then do
      let q ← pyDivR retail_price old_price
      pure (.float (pyRound1 ((1 - q) * 100)))
    else pure (.float 0)
  else pure (.float 0)

/-- `parse_product` (lines 68-102), faithful to the Python including the
`or {}` defaulting of nested dicts and the `.get` defaults. -/
def parse_product (p : PyVal) : Except String PyVal := do
  let offer := pyOr (← pyGet p "default_offer") (.dict [])
  let seller := pyOr (← pyGet offer "seller") (.dict [])
  let seller_name_obj := pyOr (← pyGet seller "marketing_name") (.dict [])
  let ratings := pyOr (← pyGet p "ratings") (.dict [])
  let category := pyOr (← pyGet p "category") (.dict [])
  let main_img := pyOr (← pyGet p "main_img") (.dict [])
  let retail_price ← pyGet offer "retail_price"
  let old_price ← pyGet offer "old_price"
  let discount_pct ← discountExpr retail_price old_price
  let idv ← pyGet p "id"
  let namev ← pyGet p "name"
  let brand := pyOr (← pyGet p "brand") (.str "")
  let category_id ← pyGet p "category_id"
  let category_name ← pyGetD category "name" (.str "")
  let statusv ← pyGet p "status"
  let seller_name ← pyGetD seller_name_obj "name" (.str "")
  let seller_rating ← pyGet seller "rating"
  let rating_value ← pyGet ratings "rating_value"
  let review_count ← pyGet ratings "session_count"
  let in_stock ← pyGetD offer "avail_check" (.bool false)
  let installment_enabled ← pyGetD offer "installment_enabled" (.bool false)
  let max_installment_months ← pyGet offer "max_installment_months"
  let image_url ← pyGetD main_img "medium" (.str "")
  let slug ← pyGetD p "slugged_name" (.str "")
  pure (.dict
    [("id", idv), ("name", namev), ("brand", brand),
     ("category_id", category_id), ("category_name", category_name),
     ("status", statusv), ("retail_price", retail_price),
     ("old_price", old_price), ("discount_pct", discount_pct),
     ("seller_name", seller_name), ("seller_rating", seller_rating),
     ("rating_value", rating_value), ("review_count", review_count),
     ("in_stock", in_stock), ("installment_enabled", installment_enabled),
     ("max_installment_months", max_installment_months),
     ("image_url", image_url),
     ("product_url", .str (PRODUCT_BASE_URL ++ "/" ++ pyStrOf slug))])

/-! ## Shape predicates and a closed form for `parse_product` -/

/-- The dict contents of a value, `[]` for anything that is not a dict. -/
def effDictV : PyVal → List (String × PyVal)
  | .dict xs => xs
  | _ => []

/-- Contents of `d.get(k) or` an empty-dict default, for dict-or-null
values of the key. -/
def effDict (xs : List (String × PyVal)) (k : String) :
    List (String × PyVal) :=
  effDictV (nullGet xs k)

/-- Contents of the `seller` dict after both `or {}` defaults. -/
def effSeller (xs : List (String × PyVal)) : List (String × PyVal) :=
  effDictV (nullGet (effDict xs "default_offer") "seller")

/-- Contents of the `marketing_name` dict after the `or {}` defaults. -/
def effMName (xs : List (String × PyVal)) : List (String × PyVal) :=
  effDictV (nullGet (effSeller xs) "marketing_name")

/-- A value a `... or {}` container position may hold without changing the
meaning of the embedding: `None` (also covering an absent key) or a dict. -/
def dictLikeB : PyVal → Bool
  | .none => true
  | .dict _ => true
  | _ => false

/-- A value a price field may hold: `None` (or absent) or a number. -/
def numLikeB : PyVal → Bool
  | .none => true
  | .bool _ => true
  | .int _ => true
  | .float _ => true
  | _ => false

/-- The key absent, or present with an explicit `null` value. -/
def absentOrNullB (xs : List (String × PyVal)) (k : String) : Bool :=
  match xs.lookup k with
  | Option.none => true
  | some .none => true
  | some _ => false

/-- Shape assumption under which `parse_product` cannot raise: every
`or {}` container is a dict, null or absent, and both prices are numbers,
null or absent. -/
def wellShapedB (xs : List (String × PyVal)) : Bool :=
  dictLikeB (nullGet xs "default_offer") &&
  dictLikeB (nullGet (effDict xs "default_offer") "seller") &&
  dictLikeB (nullGet (effSeller xs) "marketing_name") &&
  dictLikeB (nullGet xs "ratings") &&
  dictLikeB (nullGet xs "category") &&
  dictLikeB (nullGet xs "main_img") &&
  numLikeB (nullGet (effDict xs "default_offer") "retail_price") &&
  numLikeB (nullGet (effDict xs "default_offer") "old_price")

/-- The discount formula on the numeric values of the two prices: the
spec's `round((1 - retail/old) * 100, 1)` guarded by the code's
truthiness-and-comparison test. -/
def discountCalc (r o : ℚ) : ℚ :=
  if r ≠ 0 ∧ o ≠ 0 ∧ r < o then pyRound1 ((1 - r / o) * 100) else 0

/-- Closed form of the record `parse_product` builds, for well-shaped
input. -/
def parsedFields (xs : List (String × PyVal)) : List (String × PyVal) :=
  [("id", nullGet xs "id"),
   ("name", nullGet xs "name"),
   ("brand", pyOr (nullGet xs "brand") (.str "")),
   ("category_id", nullGet xs "category_id"),
   ("category_name", dGetD (effDict xs "category") "name" (.str "")),
   ("status", nullGet xs "status"),
   ("retail_price", nullGet (effDict xs "default_offer") "retail_price"),
   ("old_price", nullGet (effDict xs "default_offer") "old_price"),
   ("discount_pct", .float (discountCalc
      (ratOf (nullGet (effDict xs "default_offer") "retail_price"))
      (ratOf (nullGet (effDict xs "default_offer") "old_price")))),
   ("seller_name", dGetD (effMName xs) "name" (.str "")),
   ("seller_rating", nullGet (effSeller xs) "rating"),
   ("rating_value", nullGet (effDict xs "ratings") "rating_value"),
   ("review_count", nullGet (effDict xs "ratings") "session_count"),
   ("in_stock", dGetD (effDict xs "default_offer") "avail_check" (.bool false)),
   ("installment_enabled",
    dGetD (effDict xs "default_offer") "installment_enabled" (.bool false)),
   ("max_installment_months",
    nullGet (effDict xs "default_offer") "max_installment_months"),
   ("image_url", dGetD (effDict xs "main_img") "medium" (.str "")),
   ("product_url",
    .str (PRODUCT_BASE_URL ++ "/" ++ pyStrOf (dGetD xs "slugged_name" (.str ""))))]

theorem exceptBindOk {α β : Type} (a : α) (f : α → Except String β) :
    (Except.ok a >>= f) = f a := rfl

theorem exceptBindErr {β : Type} (e : String) (f : PyVal → Except String β) :
    ((Except.error e : Except String PyVal) >>= f) = .error e := rfl

theorem exceptPure {α : Type} (a : α) :
    (pure a : Except String α) = .ok a := rfl

theorem pyOr_dictLike {v : PyVal} (h : dictLikeB v = true) :
    pyOr v (.dict []) = .dict (effDictV v) := by
  cases v <;> simp_all [dictLikeB, pyOr, truthy, effDictV]

theorem truthy_ratOf {v : PyVal} (h : numLikeB v = true) :
    truthy v = decide (ratOf v ≠ 0) := by
  cases v <;> simp_all [numLikeB, truthy, ratOf, toRatQ]

theorem toRatQ_of_ne {v : PyVal} (h : numLikeB v = true) (h0 : ratOf v ≠ 0) :
    toRatQ v = some (ratOf v) := by
  cases v <;> simp_all [numLikeB, ratOf, toRatQ]

/-- The discount branch computes `discountCalc` on the numeric values of
the two prices whenever both are numbers or null/absent. -/
theorem discountExpr_num {rp op : PyVal} (hr : numLikeB rp = true)
    (ho : numLikeB op = true) :
    discountExpr rp op = .ok (.float (discountCalc (ratOf rp) (ratOf op))) := by
  have hrt := truthy_ratOf hr
  have hot := truthy_ratOf ho
  rcases eq_or_ne (ratOf rp) 0 with hr0 | hr0
  · simp [discountExpr, hrt, hr0, discountCalc, exceptPure]
  rcases eq_or_ne (ratOf op) 0 with ho0 | ho0
  · simp [discountExpr, hrt, hot, hr0, ho0, discountCalc, exceptPure]
  · have hrs := toRatQ_of_ne hr hr0
    have hos := toRatQ_of_ne ho ho0
    simp only [discountExpr, hrt, hot, hr0, ho0, ne_eq, not_false_eq_true,
      Bool.and_self, if_true, pyGt, hrs, hos, pyDivR, if_false,
      discountCalc, exceptBindOk, exceptPure]
    by_cases hlt : ratOf rp < ratOf op
    · simp [hlt, hr0, ho0, exceptBindOk, exceptPure]
    · simp [hlt, hr0, ho0, exceptBindOk, exceptPure]

/-- For well-shaped input, `parse_product` returns (it cannot raise) and
its record is `parsedFields`. -/
theorem parse_product_eq (xs : List (String × PyVal))
    (h : wellShapedB xs = true) :
    parse_product (.dict xs) = .ok (.dict (parsedFields xs)) := by
  simp only [wellShapedB, Bool.and_eq_true, and_assoc] at h
  obtain ⟨h1, h2, h3, h4, h5, h6, h7, h8⟩ := h
  simp only [effDict, effSeller, effMName] at h2 h3 h7 h8 ⊢
  unfold parse_product
  simp only [pyGet, exceptBindOk, exceptPure, pyOr_dictLike h1,
    pyOr_dictLike h4, pyOr_dictLike h5, pyOr_dictLike h6, pyOr_dictLike h2,
    pyOr_dictLike h3, discountExpr_num h7 h8, pyGetD, parsedFields,
    effDict, effSeller, effMName]

/-! ## `fetch_page` (lines 105-133)

One HTTP attempt is answered by a `NetResult`; `fetch_page` takes an oracle
mapping the attempt number (1-based) to the attempt's result and returns the
event trace it performs together with the row list it returns. -/

/-- Result of one `session.get` attempt: either the call raised (transport
error / timeout), or a response arrived with a status code and a body-parse
result (`.error` = `resp.json` raised). -/
inductive NetResult where
  | err : String → NetResult
  | resp : ℕ → Except String PyVal → NetResult

/-- Python iteration over a value (`for p in prods`): lists yield their
elements, strings their characters, dicts their keys; other values raise. -/
def pyIter : PyVal → Except String (List PyVal)
  | .list xs => .ok xs
  | .str s => .ok (s.toList.map fun c => .str (String.mk [c]))
  | .dict xs => .ok (xs.map fun kv => .str kv.1)
  | _ => .error "TypeError"

/-- `[parse_product(p) for p in data.get("products", [])]` (line 124):
raises when `data` is not a dict, when the `products` value is not
iterable, or when `parse_product` raises on an element. -/
def parseProducts (data : PyVal) : Except String (List PyVal) := do
  let prods ← pyGetD data "products" (.list [])
  let items ← pyIter prods
  items.mapM parse_product

/-- Classification of one attempt (lines 118-127): `some rows` means the
attempt returned (status 200, body and all products parsed), `none` means
the attempt failed (the exception was caught or the status was not 200) and
the loop continues. -/
def classify (r : NetResult) : Option (List PyVal) :=
  match r with
  | .err _ => Option.none
  | .resp status body =>
    if status = 200 then
      match body with
      | .error _ => Option.none
      | .ok data =>
        match parseProducts data with
        | .ok rows => some rows
        | .error _ => Option.none
    else Option.none

/-- Events performed by one `fetch_page` task, in program order. -/
inductive FEv where
  | acquire : FEv
  | httpCall : ℕ → FEv
  | release : FEv
  | sleep : ℕ → FEv
deriving DecidableEq, Repr

/-- The retry loop of `fetch_page` (lines 116-133), with `attempt` the
1-based attempt number and `left + 1` the number of attempts still allowed
(the loop runs `attempt = attempt .. attempt + left`).  Each iteration
acquires the semaphore, performs the call, releases the semaphore (the
`async with` exits on success return and on caught failure alike), and
sleeps `RETRY_DELAY` only when the attempt failed and attempts remain
(`attempt < RETRY_LIMIT`, i.e. `0 < left`). -/
def fetchLoop (oracle : ℕ → NetResult) : ℕ → ℕ → List FEv × List PyVal
  | _, 0 => ([], [])
  | attempt, left + 1 =>
    match classify (oracle attempt) with
    | some rows => ([.acquire, .httpCall attempt, .release], rows)
    | Option.none =>
      if 0 < left then
        let rest := fetchLoop oracle (attempt + 1) left
        ([.acquire, .httpCall attempt, .release, .sleep RETRY_DELAY] ++ rest.1,
         rest.2)
      else ([.acquire, .httpCall attempt, .release], [])

/-- `fetch_page` (lines 105-133): the loop runs attempts `1 .. RETRY_LIMIT`;
after `RETRY_LIMIT` failed attempts it gives up and returns `[]`. -/
def fetch_page (oracle : ℕ → NetResult) : List FEv × List PyVal :=
  fetchLoop oracle 1 RETRY_LIMIT

/-! ### Structure of `fetch_page` traces -/

/-- Recognises `acquire` events. -/
def isAcq : FEv → Bool
  | .acquire => true
  | _ => false

/-- Recognises `release` events. -/
def isRel : FEv → Bool
  | .release => true
  | _ => false

/-- The page numbers of the HTTP calls in a trace, in order. -/
def callsOf (t : List FEv) : List ℕ :=
  t.filterMap fun e =>
    match e with
    | .httpCall a => some a
    | _ => Option.none

/-- Traces `fetch_page` can produce: a sequence of
acquire-call-release blocks, each optionally followed by one sleep. -/
inductive GoodTrace : List FEv → Prop where
  | nil : GoodTrace []
  | block (a : ℕ) {t : List FEv} (h : GoodTrace t) :
      GoodTrace (.acquire :: .httpCall a :: .release :: t)
  | blockSleep (a d : ℕ) {t : List FEv} (h : GoodTrace t) :
      GoodTrace (.acquire :: .httpCall a :: .release :: .sleep d :: t)

theorem goodTrace_fetchLoop (oracle : ℕ → NetResult) :
    ∀ (left attempt : ℕ), GoodTrace (fetchLoop oracle attempt left).1 := by
  intro left
  induction left with
  | zero => intro attempt; exact GoodTrace.nil
  | succ left ih =>
    intro attempt
    unfold fetchLoop
    cases classify (oracle attempt) with
    | some rows => exact GoodTrace.block attempt GoodTrace.nil
    | none =>
      by_cases hl : 0 < left
      · simpa [hl] using GoodTrace.blockSleep attempt RETRY_DELAY (ih (attempt + 1))
      · simpa [hl] using GoodTrace.block attempt GoodTrace.nil

/-- In a good trace, every prefix ending right before a sleep has released
every permit it acquired. -/
theorem goodTrace_sleep_balanced {t : List FEv} (hg : GoodTrace t) :
    ∀ (pre : List FEv) (d : ℕ) (post : List FEv),
      t = pre ++ .sleep d :: post → pre.countP isAcq = pre.countP isRel := by
  induction hg with
  | nil =>
    intro pre d post h
    exact absurd h (by simp)
  | block a _ ih =>
    intro pre d post h
    match pre with
    | [] => simp at h
    | [_] => simp at h
    | [_, _] => simp at h
    | e1 :: e2 :: e3 :: pre' =>
      simp only [List.cons_append, List.cons.injEq] at h
      obtain ⟨he1, he2, he3, h4⟩ := h
      subst he1; subst he2; subst he3
      have := ih pre' d post h4
      simp [List.countP_cons, isAcq, isRel, this]
  | blockSleep a d' _ ih =>
    intro pre d post h
    match pre with
    | [] => simp at h
    | [_] => simp at h
    | [_, _] => simp at h
    | [e1, e2, e3] =>
      simp only [List.cons_append, List.nil_append, List.cons.injEq] at h
      obtain ⟨he1, he2, he3, -⟩ := h
      subst he1; subst he2; subst he3
      simp [List.countP_cons, isAcq, isRel]
    | e1 :: e2 :: e3 :: e4 :: pre' =>
      simp only [List.cons_append, List.cons.injEq] at h
      obtain ⟨he1, he2, he3, he4, h5⟩ := h
      subst he1; subst he2; subst he3; subst he4
      have := ih pre' d post h5
      simp [List.countP_cons, isAcq, isRel, this]

/-- In a good trace, every HTTP call is immediately followed by the
release of the permit. -/
theorem goodTrace_call_release {t : List FEv} (hg : GoodTrace t) :
    ∀ (pre : List FEv) (a : ℕ) (post : List FEv),
      t = pre ++ .httpCall a :: post →
        ∃ post', post = .release :: post' := by
  induction hg with
  | nil =>
    intro pre a post h
    exact absurd h (by simp)
  | block a' t' ih =>
    intro pre a post h
    match pre with
    | [] => simp at h
    | [_] =>
      simp only [List.cons_append, List.nil_append, List.cons.injEq] at h
      exact ⟨_, h.2.2.symm⟩
    | [_, _] => simp at h
    | e1 :: e2 :: e3 :: pre' =>
      simp only [List.cons_append, List.cons.injEq] at h
      exact ih pre' a post h.2.2.2
  | blockSleep a' d' t' ih =>
    intro pre a post h
    match pre with
    | [] => simp at h
    | [_] =>
      simp only [List.cons_append, List.nil_append, List.cons.injEq] at h
      exact ⟨_, h.2.2.symm⟩
    | [_, _] => simp at h
    | [_, _, _] => simp at h
    | e1 :: e2 :: e3 :: e4 :: pre' =>
      simp only [List.cons_append, List.cons.injEq] at h
      exact ih pre' a post h.2.2.2.2

/-! ## `get_total_pages` (lines 136-150) -/

/-- `int(v)`-shaped extraction: the arithmetic on `meta.total` needs an
integer (Python bools count). -/
def asIntE : PyVal → Except String ℤ
  | .int n => .ok n
  | .bool b => .ok (if b then 1 else 0)
  | _ => .error "TypeError"

/-- `get_total_pages` (lines 136-150) as a function of the single metadata
request's outcome (`.error` = the request or `resp.json` raised; the
exception propagates).  `pages = (total + PER_PAGE - 1) // PER_PAGE` with
Python floor division. -/
def get_total_pages (resp : Except String PyVal) : Except String ℤ := do
  let data ← resp
  let meta ← pyIndex data "meta"
  let total ← pyIndex meta "total"
  let t ← asIntE total
  pure ((t + (PER_PAGE : ℤ) - 1).fdiv (PER_PAGE : ℤ))

/-- `get_total_pages` against a stream of responses: the function issues
exactly one request, so only `oracle 1` is consulted. -/
def get_total_pagesO (oracle : ℕ → Except String PyVal) : Except String ℤ :=
  get_total_pages (oracle 1)

/-! ## The orchestrator `main` (lines 153-184) -/

/-- The task list of `main` (lines 162-165): one fetch task per page index
`1 .. total_pages`, identified by its page number. -/
def tasksFor (total_pages : ℕ) : List ℕ := List.range' 1 total_pages

/-- The `as_completed` consumption loop of `main` (lines 167-175): outcomes
arrive in completion order `order`; each one is appended to `rows` and bumps
the `done` counter. -/
def mainLoop (results : ℕ → List PyVal) (order : List ℕ) : List PyVal × ℕ :=
  order.foldl (fun acc page => (acc.1 ++ results page, acc.2 + 1)) ([], 0)

/-- `main` (lines 153-184) up to the CSV write: resolve the page count
(a failure there propagates out of `asyncio.run`, i.e. aborts the process
with a non-zero exit), build the task list, and drain completions.
`oracles page attempt` answers the HTTP attempts of `fetch_page` for each
page, and `order` is the completion order chosen by the scheduler. -/
def mainRun (metaResp : Except String PyVal) (oracles : ℕ → ℕ → NetResult)
    (order : List ℕ) : Except String (List ℕ × (List PyVal × ℕ)) :=
  (get_total_pages metaResp).map fun total_pages =>
    (tasksFor total_pages.toNat,
     mainLoop (fun page => (fetch_page (oracles page)).2) order)

/-! ## Helper lemmas for the claim theorems -/

/-- `pyRound1` on a value whose tenfold is an integer. -/
theorem pyRound1_int (q : ℚ) (n : ℤ) (h : q * 10 = (n : ℚ)) :
    pyRound1 q = (n : ℚ) / 10 := by
  unfold pyRound1 roundHalfEven
  rw [h, Int.floor_intCast]
  norm_num

/-- The `discount_pct` entry of a `parse_product` result. -/
def discountOf (r : Except String PyVal) : Option PyVal :=
  match r with
  | .ok (.dict d) => d.lookup "discount_pct"
  | _ => Option.none

theorem aon_nullGet {xs : List (String × PyVal)} {k : String}
    (h : absentOrNullB xs k = true) : nullGet xs k = .none := by
  unfold absentOrNullB at h
  unfold nullGet
  cases hl : xs.lookup k with
  | none => rfl
  | some v => rw [hl] at h; cases v <;> simp_all

/-- The consumption loop appends every completed page's rows and counts
one outcome per completion. -/
theorem mainLoop_eq (results : ℕ → List PyVal) (order : List ℕ) :
    mainLoop results order = (order.flatMap results, order.length) := by
  suffices h : ∀ acc : List PyVal × ℕ,
      order.foldl (fun acc page => (acc.1 ++ results page, acc.2 + 1)) acc
        = (acc.1 ++ order.flatMap results, acc.2 + order.length) by
    simpa [mainLoop] using h ([], 0)
  induction order with
  | nil => intro acc; simp
  | cons p rest ih =>
    intro acc
    simp [ih, List.flatMap_cons]
    omega

/-- Python's `(t + per - 1) // per` on naturals is the rational ceiling. -/
theorem ceilDivNat (t per : ℕ) (hper : 0 < per) :
    ((t : ℤ) + (per : ℤ) - 1).fdiv (per : ℤ) = ⌈(t : ℚ) / (per : ℚ)⌉ := by
  set q := (t + per - 1) / per with hq
  set r := (t + per - 1) % per with hr
  have hd : per * q + r = t + per - 1 := Nat.div_add_mod _ _
  have hrlt : r < per := Nat.mod_lt _ hper
  clear_value q r
  have key1 : t ≤ per * q := by omega
  have key2 : per * q < t + per := by omega
  have hperQ : (0 : ℚ) < (per : ℚ) := by exact_mod_cast hper
  have hperZ : (0 : ℤ) < (per : ℤ) := by exact_mod_cast hper
  have hdz : (per : ℤ) * (q : ℤ) + (r : ℤ) = (t : ℤ) + (per : ℤ) - 1 := by
    zify [show 1 ≤ t + per by omega] at hd
    exact hd
  have hfd : ((t : ℤ) + (per : ℤ) - 1).fdiv (per : ℤ) = (q : ℤ) := by
    rw [Int.fdiv_eq_ediv _ hperZ.le]
    have h1 : (t : ℤ) + (per : ℤ) - 1 = (r : ℤ) + (q : ℤ) * (per : ℤ) := by
      linarith [hdz]
    rw [h1, Int.add_mul_ediv_right _ _ hperZ.ne',
      Int.ediv_eq_zero_of_lt (by positivity) (by exact_mod_cast hrlt),
      zero_add]
  have hceil : ⌈(t : ℚ) / (per : ℚ)⌉ = (q : ℤ) := by
    rw [Int.ceil_eq_iff]
    push_cast
    constructor
    · rw [lt_div_iff₀ hperQ]
      have h2 : (per : ℚ) * (q : ℚ) < (t : ℚ) + (per : ℚ) := by
        exact_mod_cast key2
      nlinarith [h2]
    · rw [div_le_iff₀ hperQ]
      have h3 : (t : ℚ) ≤ (per : ℚ) * (q : ℚ) := by exact_mod_cast key1
      nlinarith [h3]
  rw [hfd, hceil]

/-! ## Concurrency model of the semaphore discipline

`main` creates `asyncio.Semaphore(CONCURRENCY)` (line 155) and `n` fetch
tasks.  Each task's lifecycle follows `fetch_page`: it waits to enter
`async with semaphore` (acquire), holds the permit exactly for the duration
of the network call, releases on leaving the `async with` (success return,
caught failure, or give-up), and sleeps between failed attempts without the
permit.  `Step` is one scheduler transition; interleaving is arbitrary. -/

/-- The control state of one fetch task. -/
inductive TState where
  | ready : ℕ → TState
  | calling : ℕ → TState
  | sleeping : ℕ → TState
  | finished : TState
deriving DecidableEq, Repr

/-- Whether a task currently holds a permit (its network call is active). -/
def isCalling : TState → Bool
  | .calling _ => true
  | _ => false

/-- Global state: free permits of the semaphore plus every task's state. -/
structure Sys (n : ℕ) where
  sem : ℕ
  tasks : Fin n → TState

/-- Initial state: all permits free, every task about to make attempt 1. -/
def initSys (n : ℕ) : Sys n := ⟨CONCURRENCY, fun _ => .ready 1⟩

/-- Number of acquired-but-not-released permits (= active network calls). -/
def activeCalls {n : ℕ} (s : Sys n) : ℕ :=
  (Finset.univ.filter fun i => isCalling (s.tasks i) = true).card

/-- One interleaving step of the run.  `acquire` blocks while `sem = 0`;
every exit path of the `async with` block returns the permit. -/
inductive Step {n : ℕ} : Sys n → Sys n → Prop where
  | acquire (s : Sys n) (i : Fin n) (a : ℕ)
      (ht : s.tasks i = .ready a) (hs : 0 < s.sem) :
      Step s ⟨s.sem - 1, Function.update s.tasks i (.calling a)⟩
  | succeed (s : Sys n) (i : Fin n) (a : ℕ)
      (ht : s.tasks i = .calling a) :
      Step s ⟨s.sem + 1, Function.update s.tasks i .finished⟩
  | fail (s : Sys n) (i : Fin n) (a : ℕ)
      (ht : s.tasks i = .calling a) (hlt : a < RETRY_LIMIT) :
      Step s ⟨s.sem + 1, Function.update s.tasks i (.sleeping a)⟩
  | exhaust (s : Sys n) (i : Fin n) (a : ℕ)
      (ht : s.tasks i = .calling a) (hge : RETRY_LIMIT ≤ a) :
      Step s ⟨s.sem + 1, Function.update s.tasks i .finished⟩
  | wake (s : Sys n) (i : Fin n) (a : ℕ)
      (ht : s.tasks i = .sleeping a) :
      Step s ⟨s.sem, Function.update s.tasks i (.ready (a + 1))⟩

/-- States reachable from the start of a run with `n` pages. -/
inductive Reach {n : ℕ} : Sys n → Prop where
  | init : Reach (initSys n)
  | step {s s' : Sys n} : Reach s → Step s s' → Reach s'

/-- How updating one task changes the active-call count. -/
theorem activeCalls_update {n : ℕ} (m m' : ℕ) (f : Fin n → TState)
    (i : Fin n) (v : TState) :
    activeCalls (⟨m', Function.update f i v⟩ : Sys n)
        + (if isCalling (f i) = true then 1 else 0)
      = activeCalls (⟨m, f⟩ : Sys n) + (if isCalling v = true then 1 else 0) := by
  simp only [activeCalls, Finset.card_filter]
  have hcomp :
      (fun j => if isCalling (Function.update f i v j) = true then 1 else 0)
        = Function.update (fun j => if isCalling (f j) = true then 1 else 0) i
            (if isCalling v = true then 1 else 0) := by
    funext j
    rcases eq_or_ne j i with rfl | hne
    · simp
    · simp [Function.update_noteq hne]
  rw [hcomp, Finset.sum_update_of_mem (Finset.mem_univ i),
    Finset.sum_eq_sum_diff_singleton_add (Finset.mem_univ i)
      (fun j => if isCalling (f j) = true then 1 else 0)]
  omega

/-- One step preserves `activeCalls + sem = CONCURRENCY`. -/
theorem step_inv {n : ℕ} {s s' : Sys n} (h : Step s s')
    (hinv : activeCalls s + s.sem = CONCURRENCY) :
    activeCalls s' + s'.sem = CONCURRENCY := by
  obtain ⟨sem, f⟩ := s
  cases h with
  | acquire i a ht hs =>
    have hu := activeCalls_update sem (sem - 1) f i (.calling a)
    simp only at ht
    rw [ht] at hu
    simp [isCalling] at hu
    simp only at hinv hs ⊢
    omega
  | succeed i a ht =>
    have hu := activeCalls_update sem (sem + 1) f i .finished
    simp only at ht
    rw [ht] at hu
    simp [isCalling] at hu
    simp only at hinv ⊢
    omega
  | fail i a ht hlt =>
    have hu := activeCalls_update sem (sem + 1) f i (.sleeping a)
    simp only at ht
    rw [ht] at hu
    simp [isCalling] at hu
    simp only at hinv ⊢
    omega
  | exhaust i a ht hge =>
    have hu := activeCalls_update sem (sem + 1) f i .finished
    simp only at ht
    rw [ht] at hu
    simp [isCalling] at hu
    simp only at hinv ⊢
    omega
  | wake i a ht =>
    have hu := activeCalls_update sem sem f i (.ready (a + 1))
    simp only at ht
    rw [ht] at hu
    simp [isCalling] at hu
    simp only at hinv ⊢
    omega

/-- The semaphore invariant holds in every reachable state. -/
theorem reach_inv {n : ℕ} {s : Sys n} (h : Reach s) :
    activeCalls s + s.sem = CONCURRENCY := by
  induction h with
  | init => simp [activeCalls, initSys, isCalling]
  | step _ hstep ih => exact step_inv hstep ih

/-! ## Claim theorems -/

/-- C1: for every totalPages ≥ 0 the orchestrator creates exactly one fetch
task per page index in `1 .. totalPages`; draining the completions (in any
completion order, i.e. any permutation of the task list) consumes exactly
`totalPages` outcomes, leaves the `done` counter equal to `totalPages`, and
returns a row list that is, as an unordered multiset, the concatenation of
every page's record list. -/
theorem orchestrator_aggregation
    (T : ℕ) (metaResp : Except String PyVal) (oracles : ℕ → ℕ → NetResult)
    (order : List ℕ)
    (htp : get_total_pages metaResp = .ok (T : ℤ))
    (hord : order.Perm (tasksFor T)) :
    (tasksFor T).length = T ∧
    (∀ p : ℕ, (tasksFor T).count p = if 1 ≤ p ∧ p ≤ T then 1 else 0) ∧
    ∃ rows : List PyVal,
      mainRun metaResp oracles order = .ok (tasksFor T, (rows, T)) ∧
      rows.Perm ((tasksFor T).flatMap fun page => (fetch_page (oracles page)).2) := by
  refine ⟨by simp [tasksFor], ?_, ?_⟩
  · intro p
    by_cases hp : p ∈ tasksFor T
    · rw [List.count_eq_one_of_mem (by simpa [tasksFor] using List.nodup_range' 1 T) hp]
      have hm : 1 ≤ p ∧ p < 1 + T := by simpa [tasksFor] using hp
      rw [if_pos ⟨hm.1, by omega⟩]
    · rw [List.count_eq_zero_of_not_mem hp, if_neg]
      intro hc
      apply hp
      have hm : 1 ≤ p ∧ p < 1 + T := ⟨hc.1, by omega⟩
      simpa [tasksFor] using hm
  · refine ⟨(order.flatMap fun page => (fetch_page (oracles page)).2), ?_, ?_⟩
    · have hlen : order.length = T := by
        have := hord.length_eq
        simpa [tasksFor] using this
      simp [mainRun, htp, Except.map, mainLoop_eq, hlen]
    · exact hord.flatMap_right _

/-- C1 witness: a concrete run with 30 items (2 pages of 24), completion
order `[2, 1]`, and failing network oracles. -/
theorem orchestrator_aggregation_witness :
    (tasksFor 2).length = 2 ∧
    (∀ p : ℕ, (tasksFor 2).count p = if 1 ≤ p ∧ p ≤ 2 then 1 else 0) ∧
    ∃ rows : List PyVal,
      mainRun (.ok (.dict [("meta", .dict [("total", .int 30)])]))
          (fun _ _ => .err "ConnectionError") [2, 1]
        = .ok (tasksFor 2, (rows, 2)) ∧
      rows.Perm ((tasksFor 2).flatMap fun _page =>
        (fetch_page (fun _ => NetResult.err "ConnectionError")).2) :=
  orchestrator_aggregation 2 _ _ [2, 1] rfl (List.Perm.swap 1 2 [])

/-- C2: under every interleaving of the page-fetch tasks, the number of
acquired-but-not-released semaphore permits (equivalently, of active
network calls) never exceeds `CONCURRENCY` (= 20). -/
theorem semaphore_bound (n : ℕ) (s : Sys n) (h : Reach s) :
    activeCalls s ≤ CONCURRENCY := by
  have := reach_inv h
  omega

/-- C2 witness: the initial state of a 25-task run is reachable and within
the bound. -/
theorem semaphore_bound_witness : activeCalls (initSys 25) ≤ CONCURRENCY :=
  semaphore_bound 25 (initSys 25) Reach.init

/-- C6: `(total + PER_PAGE - 1) // PER_PAGE` equals
`⌈total / pageSize⌉` for every total ≥ 0 and pageSize > 0, and
`get_total_pages` computes exactly that ceiling with `PER_PAGE = 24`. -/
theorem total_pages_ceil (t per : ℕ) (hper : 0 < per) :
    ((t : ℤ) + (per : ℤ) - 1).fdiv (per : ℤ) = ⌈(t : ℚ) / (per : ℚ)⌉ ∧
    get_total_pages (.ok (.dict [("meta", .dict [("total", .int (t : ℤ))])]))
      = .ok ⌈(t : ℚ) / (PER_PAGE : ℚ)⌉ := by
  refine ⟨ceilDivNat t per hper, ?_⟩
  have h := ceilDivNat t PER_PAGE (by norm_num [PER_PAGE])
  have hg : get_total_pages
      (.ok (.dict [("meta", .dict [("total", .int (t : ℤ))])]))
      = .ok (((t : ℤ) + (PER_PAGE : ℤ) - 1).fdiv (PER_PAGE : ℤ)) := rfl
  rw [hg, h]

/-- C6 witness: 62633 items at 24 per page give 2610 pages. -/
theorem total_pages_ceil_witness :
    get_total_pages
        (.ok (.dict [("meta", .dict [("total", .int ((62633 : ℕ) : ℤ))])]))
      = .ok 2610 := by
  have h := (total_pages_ceil 62633 24 (by norm_num)).2
  rw [h]
  congr 1
  rw [Int.ceil_eq_iff]
  constructor <;> norm_num [PER_PAGE]

/-- C8: `get_total_pages` issues a single request (only the first response
matters — there is no retry), any failure of that request or of the
body/`meta` extraction propagates out of `main` (modelled as the `Except`
error that aborts `asyncio.run` with a non-zero exit), and whenever page
resolution succeeds the run proceeds to the fetch phase (no other failure
can abort it before fetching begins). -/
theorem page_count_failure_fatal :
    (∀ o o' : ℕ → Except String PyVal, o 1 = o' 1 →
      get_total_pagesO o = get_total_pagesO o') ∧
    (∀ e : String, get_total_pages (.error e) = .error e) ∧
    (∀ xs : List (String × PyVal), xs.lookup "meta" = Option.none →
      get_total_pages (.ok (.dict xs)) = .error "KeyError") ∧
    (∀ (e : String) (oracles : ℕ → ℕ → NetResult) (order : List ℕ),
      mainRun (.error e) oracles order = .error e) ∧
    (∀ (resp : Except String PyVal) (tp : ℤ) (oracles : ℕ → ℕ → NetResult)
      (order : List ℕ), get_total_pages resp = .ok tp →
      mainRun resp oracles order
        = .ok (tasksFor tp.toNat,
            mainLoop (fun page => (fetch_page (oracles page)).2) order)) := by
  refine ⟨?_, ?_, ?_, ?_, ?_⟩
  · intro o o' h
    unfold get_total_pagesO
    rw [h]
  · intro e; rfl
  · intro xs h
    simp [get_total_pages, pyIndex, h, exceptBindOk, exceptBindErr]
  · intro e oracles order; rfl
  · intro resp tp oracles order h
    simp [mainRun, h, Except.map]

/-- C8 witness: concrete aborts and a concrete successful resolution. -/
theorem page_count_failure_fatal_witness :
    get_total_pagesO (fun _ => .error "ConnectionError")
      = get_total_pagesO (fun a =>
          if a = 1 then .error "ConnectionError" else .ok (.dict [])) ∧
    get_total_pages (.ok (.dict [("items", .list [])])) = .error "KeyError" ∧
    mainRun (.error "Timeout") (fun _ _ => .err "x") [] = .error "Timeout" ∧
    mainRun (.ok (.dict [("meta", .dict [("total", .int 24)])]))
        (fun _ _ => .err "x") [1]
      = .ok (tasksFor (1 : ℤ).toNat,
          mainLoop (fun _page =>
            (fetch_page (fun _ => NetResult.err "x")).2) [1]) :=
  ⟨page_count_failure_fatal.1 _ _ rfl,
   page_count_failure_fatal.2.2.1 _ rfl,
   page_count_failure_fatal.2.2.2.1 _ _ _,
   page_count_failure_fatal.2.2.2.2 _ 1 _ _ rfl⟩

/-- C3: when every attempt of a page fails, `fetch_page` performs exactly
`RETRY_LIMIT` attempts, with one `RETRY_DELAY` sleep between each
consecutive pair (and none after the last), then returns the empty row
list without raising; it makes no further attempt. -/
theorem retry_exhaustion (oracle : ℕ → NetResult)
    (hfail : ∀ a : ℕ, classify (oracle a) = Option.none) :
    fetch_page oracle
      = ([.acquire, .httpCall 1, .release, .sleep RETRY_DELAY,
          .acquire, .httpCall 2, .release, .sleep RETRY_DELAY,
          .acquire, .httpCall 3, .release], []) ∧
    (callsOf (fetch_page oracle).1).length = RETRY_LIMIT := by
  have h : fetch_page oracle
      = ([.acquire, .httpCall 1, .release, .sleep RETRY_DELAY,
          .acquire, .httpCall 2, .release, .sleep RETRY_DELAY,
          .acquire, .httpCall 3, .release], []) := by
    simp [fetch_page, RETRY_LIMIT, fetchLoop, hfail 1, hfail 2, hfail 3,
      RETRY_DELAY]
  exact ⟨h, by rw [h]; rfl⟩

/-- C3 witness: an oracle whose every attempt raises a timeout. -/
theorem retry_exhaustion_witness :
    fetch_page (fun _ => NetResult.err "TimeoutError")
      = ([.acquire, .httpCall 1, .release, .sleep RETRY_DELAY,
          .acquire, .httpCall 2, .release, .sleep RETRY_DELAY,
          .acquire, .httpCall 3, .release], []) ∧
    (callsOf (fetch_page (fun _ => NetResult.err "TimeoutError")).1).length
      = RETRY_LIMIT :=
  retry_exhaustion _ (fun _ => rfl)

/-- C4: if attempts `1 .. k` fail (`k < RETRY_LIMIT`) and attempt `k + 1`
succeeds with row list `rows`, then `fetch_page` returns exactly `rows`
and the attempts performed are exactly `1 .. k + 1` in order — no attempt
happens after the success. -/
theorem retry_success (oracle : ℕ → NetResult) (k : ℕ) (rows : List PyVal)
    (hk : k < RETRY_LIMIT)
    (hfail : ∀ a : ℕ, 1 ≤ a → a ≤ k → classify (oracle a) = Option.none)
    (hsucc : classify (oracle (k + 1)) = some rows) :
    (fetch_page oracle).2 = rows ∧
    callsOf (fetch_page oracle).1 = List.range' 1 (k + 1) := by
  have hk3 : k = 0 ∨ k = 1 ∨ k = 2 := by
    simp [RETRY_LIMIT] at hk
    omega
  rcases hk3 with rfl | rfl | rfl
  · constructor <;>
      simp [fetch_page, RETRY_LIMIT, fetchLoop, hsucc, callsOf, List.range']
  · have f1 := hfail 1 (by norm_num) (by norm_num)
    constructor <;>
      simp [fetch_page, RETRY_LIMIT, fetchLoop, f1, hsucc, callsOf,
        List.range']
  · have f1 := hfail 1 (by norm_num) (by norm_num)
    have f2 := hfail 2 (by norm_num) (by norm_num)
    constructor <;>
      simp [fetch_page, RETRY_LIMIT, fetchLoop, f1, f2, hsucc, callsOf,
        List.range']

/-- C4 witness: one failed attempt, then a successful empty page. -/
theorem retry_success_witness :
    (fetch_page (fun a => if a = 1 then NetResult.err "e"
        else .resp 200 (.ok (.dict [("products", .list [])])))).2 = [] ∧
    callsOf (fetch_page (fun a => if a = 1 then NetResult.err "e"
        else .resp 200 (.ok (.dict [("products", .list [])])))).1
      = List.range' 1 2 :=
  retry_success _ 1 [] (by norm_num [RETRY_LIMIT])
    (fun a h1 h2 => by
      have ha : a = 1 := le_antisymm h2 h1
      rw [ha]
      rfl)
    rfl

/-- C5: within `fetch_page`, the retry sleep never occurs while a permit
is held — every trace prefix ending at a sleep has equal acquire and
release counts — and the permit is released immediately after each network
call completes (the event right after every `httpCall` is `release`). -/
theorem sleep_releases_permit (oracle : ℕ → NetResult) :
    (∀ (pre : List FEv) (d : ℕ) (post : List FEv),
      (fetch_page oracle).1 = pre ++ .sleep d :: post →
        pre.countP isAcq = pre.countP isRel) ∧
    (∀ (pre : List FEv) (a : ℕ) (post : List FEv),
      (fetch_page oracle).1 = pre ++ .httpCall a :: post →
        ∃ post', post = .release :: post') :=
  ⟨fun pre d post h =>
    goodTrace_sleep_balanced (goodTrace_fetchLoop oracle RETRY_LIMIT 1)
      pre d post h,
   fun pre a post h =>
    goodTrace_call_release (goodTrace_fetchLoop oracle RETRY_LIMIT 1)
      pre a post h⟩

/-- C5 witness: a fail-then-succeed trace, checked at its sleep event and
at its first call event. -/
theorem sleep_releases_permit_witness :
    ([FEv.acquire, FEv.httpCall 1, FEv.release].countP isAcq
      = [FEv.acquire, FEv.httpCall 1, FEv.release].countP isRel) ∧
    ∃ post', ([FEv.release, FEv.sleep RETRY_DELAY, FEv.acquire,
        FEv.httpCall 2, FEv.release] : List FEv) = FEv.release :: post' :=
  ⟨(sleep_releases_permit (fun a => if a = 1 then NetResult.err "e"
      else .resp 200 (.ok (.dict [("products", .list [])])))).1
      [FEv.acquire, FEv.httpCall 1, FEv.release] RETRY_DELAY
      [FEv.acquire, FEv.httpCall 2, FEv.release] rfl,
   (sleep_releases_permit (fun a => if a = 1 then NetResult.err "e"
      else .resp 200 (.ok (.dict [("products", .list [])])))).2
      [FEv.acquire] 1
      [FEv.release, FEv.sleep RETRY_DELAY, FEv.acquire,
       FEv.httpCall 2, FEv.release] rfl⟩

/-- C9 counterexample: an HTTP 200 response whose body parses successfully
(to the JSON array `[]`) is classified as a failed attempt, not as a
success — `data.get("products", [])` raises on a non-dict body and the
exception is caught by the retry loop. -/
theorem classify_counterexample :
    classify (.resp 200 (.ok (.list []))) = Option.none := rfl

/-- C9 (amended): every non-200 status, transport error / timeout, or
body-parse failure is a failed attempt; an HTTP 200 whose body parses to a
JSON object with an extractable `products` field is a success carrying
exactly the parsed records (the empty list when the field is absent); a
200 body parsing to a non-dict value, or one whose record extraction
raises, is also a failed attempt.  No case raises out of the attempt. -/
theorem classify_amended :
    (∀ e : String, classify (.err e) = Option.none) ∧
    (∀ (st : ℕ) (body : Except String PyVal), st ≠ 200 →
      classify (.resp st body) = Option.none) ∧
    (∀ e : String, classify (.resp 200 (.error e)) = Option.none) ∧
    (∀ (xs : List (String × PyVal)) (rows : List PyVal),
      parseProducts (.dict xs) = .ok rows →
      classify (.resp 200 (.ok (.dict xs))) = some rows) ∧
    (∀ xs : List (String × PyVal), xs.lookup "products" = Option.none →
      parseProducts (.dict xs) = .ok []) ∧
    (∀ (xs : List (String × PyVal)) (e : String),
      parseProducts (.dict xs) = .error e →
      classify (.resp 200 (.ok (.dict xs))) = Option.none) ∧
    (∀ v : PyVal, (∀ xs : List (String × PyVal), v ≠ .dict xs) →
      classify (.resp 200 (.ok v)) = Option.none) := by
  refine ⟨fun e => rfl, ?_, fun e => rfl, ?_, ?_, ?_, ?_⟩
  · intro st body h
    simp [classify, h]
  · intro xs rows h
    simp [classify, h]
  · intro xs h
    simp [parseProducts, pyGetD, dGetD, h, pyIter, exceptBindOk, exceptPure]
    rfl
  · intro xs e h
    simp [classify, h]
  · intro v hv
    cases v <;>
      first
      | exact absurd rfl (hv _)
      | simp [classify, parseProducts, pyGetD, exceptBindErr]

/-- C9 witness: the amended classification at concrete attempts. -/
theorem classify_amended_witness :
    classify (.resp 404 (.ok (.dict []))) = Option.none ∧
    classify (.resp 200
        (.ok (.dict [("products", .list [])]))) = some [] ∧
    parseProducts (.dict [("meta", .dict [])]) = .ok [] ∧
    classify (.resp 200 (.ok (.str "oops"))) = Option.none :=
  ⟨classify_amended.2.1 404 _ (by norm_num),
   classify_amended.2.2.2.1 [("products", .list [])] [] rfl,
   classify_amended.2.2.2.2.1 [("meta", .dict [])] rfl,
   classify_amended.2.2.2.2.2.2 (.str "oops") (fun _ h => by cases h)⟩

/-- C7 counterexample: for `retail_price = 0`, `old_price = 100` the claim
demands `round((1 - 0/100) * 100, 1) = 100.0` (since `old > retail`), but
`parse_product` yields `0.0` because the code additionally requires both
prices to be truthy and `0` is falsy. -/
theorem discount_counterexample :
    discountOf (parse_product (.dict [("default_offer",
        .dict [("retail_price", .int 0), ("old_price", .int 100)])]))
      = some (.float 0) ∧
    pyRound1 ((1 - (0 : ℚ) / 100) * 100) = 100 ∧
    (0 : ℚ) < 100 ∧ (100 : ℚ) ≠ 0 := by
  refine ⟨rfl, ?_, by norm_num, by norm_num⟩
  rw [pyRound1_int _ 1000 (by norm_num)]
  norm_num

/-- C7 (amended): for every record whose `or {}` containers are dicts,
null or absent and whose prices are numbers, null or absent, the derived
discount equals `round((1 - retail/old) * 100, 1)` when both prices are
truthy (present and nonzero) and `old > retail`, and `0.0` otherwise —
including when either price is missing, null or zero. -/
theorem discount_amended (xs : List (String × PyVal))
    (h : wellShapedB xs = true) :
    discountOf (parse_product (.dict xs))
      = some (.float (discountCalc
          (ratOf (nullGet (effDict xs "default_offer") "retail_price"))
          (ratOf (nullGet (effDict xs "default_offer") "old_price")))) := by
  rw [parse_product_eq xs h]
  rfl

/-- C7 witness: retail 80 and old 100 give a 20.0 percent discount. -/
theorem discount_amended_witness :
    discountOf (parse_product (.dict [("default_offer",
        .dict [("retail_price", .float 80), ("old_price", .float 100)])]))
      = some (.float 20) := by
  have h := discount_amended [("default_offer",
    .dict [("retail_price", .float 80), ("old_price", .float 100)])] rfl
  rw [h]
  have hc : discountCalc 80 100 = 20 := by
    unfold discountCalc
    rw [if_pos (by norm_num), pyRound1_int _ 200 (by norm_num)]
    norm_num
  show some (PyVal.float (discountCalc 80 100)) = some (.float 20)
  rw [hc]

/-- C10: for every input dict whose nested containers (`default_offer`,
`ratings`, `category`, `main_img`, hence also `seller` and
`marketing_name`) are absent or explicitly null, `parse_product` returns
without raising a record with exactly the 18 `CSV_FIELDS` keys and falsy
defaults in the defaulted fields; a record with no `slugged_name`
additionally gets the product URL with an empty slug. -/
theorem parse_product_defaults (xs : List (String × PyVal))
    (h1 : absentOrNullB xs "default_offer" = true)
    (h2 : absentOrNullB xs "ratings" = true)
    (h3 : absentOrNullB xs "category" = true)
    (h4 : absentOrNullB xs "main_img" = true) :
    ∃ r : List (String × PyVal),
      parse_product (.dict xs) = .ok (.dict r) ∧
      r.map Prod.fst = CSV_FIELDS ∧
      r.lookup "category_name" = some (.str "") ∧
      r.lookup "discount_pct" = some (.float 0) ∧
      r.lookup "retail_price" = some .none ∧
      r.lookup "old_price" = some .none ∧
      r.lookup "seller_name" = some (.str "") ∧
      r.lookup "seller_rating" = some .none ∧
      r.lookup "rating_value" = some .none ∧
      r.lookup "review_count" = some .none ∧
      r.lookup "in_stock" = some (.bool false) ∧
      r.lookup "installment_enabled" = some (.bool false) ∧
      r.lookup "max_installment_months" = some .none ∧
      r.lookup "image_url" = some (.str "") ∧
      (xs.lookup "slugged_name" = Option.none →
        r.lookup "product_url"
          = some (.str "https://birmarket.az/products/")) := by
  have e1 := aon_nullGet h1
  have e2 := aon_nullGet h2
  have e3 := aon_nullGet h3
  have e4 := aon_nullGet h4
  have hw : wellShapedB xs = true := by
    simp only [wellShapedB, effDict, effSeller]
    rw [e1, e2, e3, e4]
    rfl
  have hp : parsedFields xs =
      [("id", nullGet xs "id"), ("name", nullGet xs "name"),
       ("brand", pyOr (nullGet xs "brand") (.str "")),
       ("category_id", nullGet xs "category_id"),
       ("category_name", .str ""), ("status", nullGet xs "status"),
       ("retail_price", .none), ("old_price", .none),
       ("discount_pct", .float 0), ("seller_name", .str ""),
       ("seller_rating", .none), ("rating_value", .none),
       ("review_count", .none), ("in_stock", .bool false),
       ("installment_enabled", .bool false),
       ("max_installment_months", .none), ("image_url", .str ""),
       ("product_url", .str (PRODUCT_BASE_URL ++ "/"
          ++ pyStrOf (dGetD xs "slugged_name" (.str ""))))] := by
    simp only [parsedFields, effDict, effSeller, effMName]
    rw [e1, e2, e3, e4]
    rfl
  refine ⟨parsedFields xs, parse_product_eq xs hw, ?_⟩
  rw [hp]
  refine ⟨rfl, rfl, rfl, rfl, rfl, rfl, rfl, rfl, rfl, rfl, rfl, rfl,
    rfl, ?_⟩
  intro hs
  simp [dGetD, hs, pyStrOf, PRODUCT_BASE_URL]
  rfl

/-- C10 witness: a record whose `default_offer` is explicitly null and
whose other fields are absent. -/
theorem parse_product_defaults_witness :
    ∃ r : List (String × PyVal),
      parse_product (.dict [("default_offer", PyVal.none)]) = .ok (.dict r) ∧
      r.map Prod.fst = CSV_FIELDS ∧
      r.lookup "category_name" = some (.str "") ∧
      r.lookup "discount_pct" = some (.float 0) ∧
      r.lookup "retail_price" = some .none ∧
      r.lookup "old_price" = some .none ∧
      r.lookup "seller_name" = some (.str "") ∧
      r.lookup "seller_rating" = some .none ∧
      r.lookup "rating_value" = some .none ∧
      r.lookup "review_count" = some .none ∧
      r.lookup "in_stock" = some (.bool false) ∧
      r.lookup "installment_enabled" = some (.bool false) ∧
      r.lookup "max_installment_months" = some .none ∧
      r.lookup "image_url" = some (.str "") ∧
      (([("default_offer", PyVal.none)] : List (String × PyVal)).lookup
          "slugged_name" = Option.none →
        r.lookup "product_url"
          = some (.str "https://birmarket.az/products/")) :=
  parse_product_defaults [("default_offer", PyVal.none)] rfl rfl rfl rfl

end Clothes
